import Mathlib

/-! Verification of the exelvi.js utility library.

The Lean definitions below are a shallow embedding of `src/index.ts`
(timestamp formatting, numeric utilities, color conversions) and of the
looser timestamp variant in `src/unnamed/part_000`.

Modelling conventions:
* JavaScript numbers are modelled as exact rationals (`ℚ`); the special
  floating-point values NaN and Infinity are not represented.  Claims about
  integer inputs are stated over `ℤ` or `ℕ`.
* JavaScript bitwise operators first convert their operands with the
  ECMAScript ToInt32 operation (truncate toward zero, reduce modulo `2^32`
  into the signed 32-bit range); `toInt32` models this.  An arithmetic right
  shift by `k` is floor division by `2 ^ k`, and Lean's `/` on `ℤ`
  (Euclidean division) coincides with floor division for the positive
  divisors `2 ^ k` used here.  `x & 255` keeps the low eight bits of the
  two's-complement representation, which is the nonnegative remainder
  `x % 256` (Lean's `%` on `ℤ` is the nonnegative Euclidean remainder).
* `throw new Error(...)` is modelled with `Except JsErr`; the distinct
  TypeError thrown by `Array.prototype.reduce` on an empty array with no
  initial value is the separate error `JsErr.typeError`.
* `Number.prototype.toString(16)` is modelled for integer values
  (`jsIntToHexString`); the hexadecimal fraction digits JavaScript would
  print for a non-integer value are not modelled (every claim concerns
  integer-valued channels), so the packed color value is truncated first.
-/

/-- The two kinds of runtime error the library can produce: its own
`new Error(...)` argument-validation errors, and the TypeError raised by
`reduce` on an empty array. -/
inductive JsErr where
  | invalidArgument : JsErr
  | typeError : JsErr
deriving DecidableEq, Repr

/-- A dynamically typed JavaScript value, as far as the library inspects
them with `typeof`: a number, a string, or anything else (modelled by
`undef`).  Dynamic numeric payloads are modelled as integers; the pure
computation layer uses `ℚ` wherever a claim concerns fractional values. -/
inductive JSValue where
  | num : ℤ → JSValue
  | str : String → JSValue
  | undef : JSValue
deriving DecidableEq, Repr

/-- The numeric payload of a value (zero for non-numbers; only read after a
successful `typeof` check). -/
def JSValue.toNum : JSValue → ℤ
  | .num q => q
  | _ => 0

/-- `typeof v === 'number'`. -/
def JSValue.isNum : JSValue → Bool
  | .num _ => true
  | _ => false

/-- `typeof v === 'string'`. -/
def JSValue.isStr : JSValue → Bool
  | .str _ => true
  | _ => false

/-- Truncation toward zero, the rounding JavaScript applies inside `%` and
ToInt32. -/
def jsTrunc (q : ℚ) : ℤ := if 0 ≤ q then ⌊q⌋ else ⌈q⌉

/-- The JavaScript remainder operator `a % b` on numbers: the sign follows
the dividend, `a % b = a - b * trunc(a / b)`.  (For `b = 0` JavaScript
produces NaN, which this model cannot represent; the library only reaches
`%` with a nonzero divisor.) -/
def jsModQ (a b : ℚ) : ℚ := a - b * (jsTrunc (a / b) : ℤ)

/-- ECMAScript ToInt32 of an integer value: reduce modulo `2^32` into
`[-2^31, 2^31)`. -/
def toInt32 (n : ℤ) : ℤ := (n + 2 ^ 31) % 2 ^ 32 - 2 ^ 31

/-- ToInt32 of a (finite) number: truncate toward zero, then wrap. -/
def toInt32Q (q : ℚ) : ℤ := toInt32 (jsTrunc q)

/-- The JavaScript left shift `q << k`: ToInt32 the operand, shift, and wrap
the result back into the signed 32-bit range. -/
def jsShlQ (q : ℚ) (k : ℕ) : ℤ := toInt32 (toInt32Q q * 2 ^ k)

/-- Big-endian base-16 digits of a natural number, as produced by
`Number.prototype.toString(16)` (no leading zeros; `0` prints as `[0]`). -/
def hexDigits (n : ℕ) : List ℕ :=
  if n < 16 then [n] else hexDigits (n / 16) ++ [n % 16]
decreasing_by exact Nat.div_lt_self (by omega) (by omega)

/-- The characters of `n.toString(16)` for a natural `n`: lowercase
hexadecimal digits. -/
def natToHexChars (n : ℕ) : List Char := (hexDigits n).map Nat.digitChar

/-- `n.toString(16)` for an integer `n`: a minus sign followed by the digits
of the absolute value when `n` is negative. -/
def jsIntToHexString (n : ℤ) : String :=
  if n < 0 then ⟨'-' :: natToHexChars n.natAbs⟩ else ⟨natToHexChars n.toNat⟩

/-- Whitespace skipped by `parseInt` (the common whitespace characters). -/
def isJsWhitespace (c : Char) : Bool :=
  c == ' ' || c == '\t' || c == '\n' || c == '\r'

/-- The numeric value of one case-insensitive hexadecimal digit character,
`none` for any other character. -/
def hexDigitVal? (c : Char) : Option ℕ :=
  if '0' ≤ c ∧ c ≤ '9' then some (c.toNat - '0'.toNat)
  else if 'a' ≤ c ∧ c ≤ 'f' then some (c.toNat - 'a'.toNat + 10)
  else if 'A' ≤ c ∧ c ≤ 'F' then some (c.toNat - 'A'.toNat + 10)
  else none

/-- The optional sign at the front of a `parseInt` input: the sign factor
and the remaining characters. -/
def stripSign (l : List Char) : ℤ × List Char :=
  if l.head? = some '-' then (-1, l.tail)
  else if l.head? = some '+' then (1, l.tail)
  else (1, l)

/-- The optional `0x` / `0X` prefix `parseInt` strips in radix 16. -/
def strip0x (l : List Char) : List Char :=
  if l.head? = some '0' ∧ (l.tail.head? = some 'x' ∨ l.tail.head? = some 'X') then
    l.tail.tail
  else l

/-- `parseInt(s, 16)` per ECMAScript: skip leading whitespace, consume an
optional sign, strip an optional `0x`/`0X` prefix, then read the longest
prefix of hexadecimal digits; if that prefix is empty the result is NaN
(modelled by `none`). -/
def parseIntHex (l0 : List Char) : Option ℤ :=
  let p := stripSign (l0.dropWhile isJsWhitespace)
  let digits := (strip0x p.2).takeWhile fun c => (hexDigitVal? c).isSome
  if digits = [] then none
  else some (p.1 * digits.foldl (fun acc c => 16 * acc + ((hexDigitVal? c).getD 0 : ℤ)) 0)

/-- An RGB triple as returned by the library (integer channels). -/
structure Rgb where
  r : ℤ
  g : ℤ
  b : ℤ
deriving DecidableEq, Repr

namespace colors

/-- `hex.replace('#', '')`: with a one-character string pattern, JavaScript
`replace` removes only the first occurrence. -/
def jsReplaceFirstHash : List Char → List Char
  | [] => []
  | c :: t => if c = '#' then t else c :: jsReplaceFirstHash t

/-- The computation of `colors.hexToRgb` after its `typeof` check:
`bigint = parseInt(hex.replace('#',''), 16)` followed by
`{ r: (bigint >> 16) & 255, g: (bigint >> 8) & 255, b: bigint & 255 }`.
A NaN parse result is coerced to `0` by ToInt32 inside the bitwise
operators; `bigint` is already in the 32-bit range afterwards, so the
further ToInt32 inside `>>` and `&` is the identity on it. -/
def hexToRgbImpl (hex : String) : Rgb :=
  let bigint : ℤ :=
    match parseIntHex (jsReplaceFirstHash hex.data) with
    | none => 0
    | some n => toInt32 n
  ⟨bigint / 2 ^ 16 % 256, bigint / 2 ^ 8 % 256, bigint % 256⟩

/-- The computation of `colors.rgbToHex` after its `typeof` checks:
`'#' + ((1 << 24) + (r << 16) + (g << 8) + b).toString(16).slice(1)`.
The three shifts are 32-bit operations; the additions and the raw `b` stay
in ordinary number arithmetic.  `slice(1)` drops the first character. -/
def rgbToHexImpl (r g b : ℚ) : String :=
  let packed : ℚ := ((jsShlQ 1 24 : ℤ) : ℚ) + ((jsShlQ r 16 : ℤ) : ℚ) + ((jsShlQ g 8 : ℤ) : ℚ) + b
  "#" ++ ⟨(jsIntToHexString (jsTrunc packed)).data.drop 1⟩

end colors

/-- The low `k` base-16 digits of `m` (big-endian, zero-padded to length
`k`): the digit list `toString(16)` produces after the leading `1` of
`16 ^ k + m`. -/
def lowHexDigits : ℕ → ℕ → List ℕ
  | 0, _ => []
  | k + 1, m => lowHexDigits k (m / 16) ++ [m % 16]

namespace colors

/-- `colors.hexToRgb` with its runtime check: throws only when the argument
is not a string. -/
def hexToRgb : JSValue → Except JsErr Rgb
  | .str s => .ok (hexToRgbImpl s)
  | _ => .error .invalidArgument

end colors

/-- Well-formed hex content: after removing the optional leading hash the
string has exactly six case-insensitive hexadecimal digit characters. -/
def wellFormedHex (s : String) : Bool :=
  (colors.jsReplaceFirstHash s.data).length = 6 &&
    (colors.jsReplaceFirstHash s.data).all fun c => (hexDigitVal? c).isSome

namespace discordTimestamps

/-- The keys of the `formats` constant, in declaration order. -/
def formatsKeys : List String := ["RELATIVE", "DATE", "TIME", "SHORT_TIME", "FULL"]

/-- Property access `formats[format]` on the `formats` constant. -/
def formatsLookup : String → Option String
  | "RELATIVE" => some "R"
  | "DATE" => some "D"
  | "TIME" => some "T"
  | "SHORT_TIME" => some "t"
  | "FULL" => some "F"
  | _ => none

/-- `discordTimestamps.fromDate` of `src/index.ts` (the stricter variant):
check that the date is a number, check the format tag against the key set,
then produce the token from `Math.floor(date / 1000)`.  Accessing
`formats[format]` cannot miss inside the validated branch; `getD` only
supplies the (unreachable there) stringification of `undefined`. -/
def fromDate (date : JSValue) (format : String) : Except JsErr String :=
  match date with
  | .num q =>
    if format ∈ formatsKeys then
      .ok ("<t:" ++ toString (⌊(q : ℚ) / 1000⌋ : ℤ) ++ ":" ++
        ((formatsLookup format).getD "undefined") ++ ">")
    else .error .invalidArgument
  | _ => .error .invalidArgument

/-- `discordTimestamps.now` of `src/index.ts`: the current wall-clock time
(a side effect) is passed explicitly as `nowMs`. -/
def now (nowMs : ℚ) (format : String) : Except JsErr String :=
  if format ∈ formatsKeys then
    .ok ("<t:" ++ toString (⌊nowMs / 1000⌋ : ℤ) ++ ":" ++
      ((formatsLookup format).getD "undefined") ++ ">")
  else .error .invalidArgument

/-- `discordTimestamps.fromNow` of `src/index.ts`. -/
def fromNow (nowMs : ℚ) (ms : JSValue) (format : String) : Except JsErr String :=
  match ms with
  | .num q =>
    if format ∈ formatsKeys then
      .ok ("<t:" ++ toString (⌊(nowMs + (q : ℚ)) / 1000⌋ : ℤ) ++ ":" ++
        ((formatsLookup format).getD "undefined") ++ ">")
    else .error .invalidArgument
  | _ => .error .invalidArgument

end discordTimestamps

namespace loose

/-- `discordTimestamps.fromDate` of `src/unnamed/part_000` (the looser
variant): only the date is validated; an unrecognized tag reads
`formats[format] = undefined`, which the template literal prints as the
string `undefined`. -/
def fromDate (date : JSValue) (format : String) : Except JsErr String :=
  match date with
  | .num q =>
    .ok ("<t:" ++ toString (⌊(q : ℚ) / 1000⌋ : ℤ) ++ ":" ++
      ((discordTimestamps.formatsLookup format).getD "undefined") ++ ">")
  | _ => .error .invalidArgument

/-- `discordTimestamps.now` of `src/unnamed/part_000`: no validation at
all. -/
def now (nowMs : ℚ) (format : String) : String :=
  "<t:" ++ toString (⌊nowMs / 1000⌋ : ℤ) ++ ":" ++
    ((discordTimestamps.formatsLookup format).getD "undefined") ++ ">"

/-- `discordTimestamps.fromNow` of `src/unnamed/part_000`: only `ms` is
validated. -/
def fromNow (nowMs : ℚ) (ms : JSValue) (format : String) : Except JsErr String :=
  match ms with
  | .num q =>
    .ok ("<t:" ++ toString (⌊(nowMs + (q : ℚ)) / 1000⌋ : ℤ) ++ ":" ++
      ((discordTimestamps.formatsLookup format).getD "undefined") ++ ">")
  | _ => .error .invalidArgument

end loose

namespace numbers

/-- The trial-division loop of `numbers.isPrime` for a natural argument:
`for (let i = 2; i <= Math.sqrt(num); i++)`.  For integers `i` and `num`,
`i <= Math.sqrt(num)` holds exactly when `i ≤ ⌊√num⌋ = Nat.sqrt num`. -/
def isPrimeLoop (num : ℕ) (i : ℕ) : Bool :=
  if i ≤ Nat.sqrt num then (if num % i = 0 then false else isPrimeLoop num (i + 1))
  else true
termination_by Nat.sqrt num + 1 - i
decreasing_by simp_wf; omega

/-- `numbers.isPrime` restricted to integer inputs: `num < 2` is rejected,
otherwise trial division runs up to the square root. -/
def isPrimeInt (num : ℤ) : Bool :=
  if num < 2 then false else isPrimeLoop num.toNat 2

/-- `numbers.gdc` on natural numbers: `b === 0 ? a : gdc(b, a % b)`. -/
def gdcNat (a b : ℕ) : ℕ := if b = 0 then a else gdcNat b (a % b)
termination_by b
decreasing_by exact Nat.mod_lt a (by omega)

/-- `numbers.lcm` on naturals: `abs(a * b) / gdc(a, b)` (`abs` is the
identity on naturals); the division is exact. -/
def lcmNat (a b : ℕ) : ℕ := a * b / gdcNat a b

/-- `numbers.gdcArray`: `reduce` without an initial value, so the empty
array throws a TypeError. -/
def gdcArrayNat (l : List ℕ) : Except JsErr ℕ :=
  match l with
  | [] => .error .typeError
  | h :: t => .ok (t.foldl gdcNat h)

/-- `numbers.lcmArray`: same reduction through `lcm`. -/
def lcmArrayNat (l : List ℕ) : Except JsErr ℕ :=
  match l with
  | [] => .error .typeError
  | h :: t => .ok (t.foldl lcmNat h)

/-- The computation of `numbers.random` with the pseudo-random source `u`
passed explicitly: `Math.floor(u * (max - min + 1)) + min`. -/
def randomImpl (min max u : ℚ) : ℚ := (⌊u * (max - min + 1)⌋ : ℤ) + min

end numbers

namespace colors

/-- `colors.randomHex` with the pseudo-random source `u` passed explicitly:
`'#' + Math.floor(u * 16777215).toString(16)`. -/
def randomHexImpl (u : ℚ) : String := "#" ++ jsIntToHexString ⌊u * 16777215⌋

end colors

/-- An HSL triple as returned by the library (integer components after
`Math.round`). -/
structure Hsl where
  h : ℤ
  s : ℤ
  l : ℤ
deriving DecidableEq, Repr

namespace numbers

/-- `numbers.gdc` on integer (dynamic) values:
`b === 0 ? a : gdc(b, a % b)`, where `%` on integers is truncated
remainder (`Int.tmod`, sign following the dividend).  The magnitude of the
second argument strictly decreases. -/
def gdcInt (a b : ℤ) : ℤ := if b = 0 then a else gdcInt b (Int.tmod a b)
termination_by b.natAbs
decreasing_by
  rename_i hb
  have hb2 : b.natAbs ≠ 0 := fun h => hb (Int.natAbs_eq_zero.mp h)
  have key : (Int.tmod a b).natAbs = a.natAbs % b.natAbs := by
    rcases a with m | m <;> rcases b with n | n
    · rfl
    · rfl
    · rw [show Int.tmod (Int.negSucc m) (Int.ofNat n)
          = -(Int.ofNat (Nat.succ m % n)) from rfl, Int.natAbs_neg]
      rfl
    · rw [show Int.tmod (Int.negSucc m) (Int.negSucc n)
          = -(Int.ofNat (Nat.succ m % Nat.succ n)) from rfl, Int.natAbs_neg]
      rfl
  rw [key]
  exact Nat.mod_lt _ (by omega)

/-- `numbers.lcm` on integer values: `abs(a * b) / gdc(a, b)`.  The JS
division is real division, but `gdc` always divides `a * b` exactly, so
integer division is faithful; a zero `gdc` (only for `a = b = 0`) gives NaN
in JavaScript, which this model cannot represent (the division then yields
the placeholder `0`). -/
def lcmInt (a b : ℤ) : ℤ := |a * b| / gdcInt a b

/-- `numbers.isEven` with its runtime check (`num % 2 === 0`). -/
def isEven (v : JSValue) : Except JsErr Bool :=
  match v with
  | .num q => .ok (decide (Int.tmod q 2 = 0))
  | _ => .error .invalidArgument

/-- `numbers.isOdd` with its runtime check (`num % 2 !== 0`). -/
def isOdd (v : JSValue) : Except JsErr Bool :=
  match v with
  | .num q => .ok (decide (Int.tmod q 2 ≠ 0))
  | _ => .error .invalidArgument

/-- `numbers.isPrime` with its runtime check. -/
def isPrime (v : JSValue) : Except JsErr Bool :=
  match v with
  | .num q => .ok (isPrimeInt q)
  | _ => .error .invalidArgument

/-- `numbers.random` with its runtime checks; the pseudo-random draw is
passed explicitly. -/
def random (a b : JSValue) (u : ℚ) : Except JsErr ℚ :=
  match a, b with
  | .num x, .num y => .ok (randomImpl x y u)
  | _, _ => .error .invalidArgument

/-- `numbers.average` with its runtime checks: after the type check, the
initial-value-free `reduce` throws a TypeError on an empty argument list;
otherwise the arithmetic mean is returned. -/
def average (l : List JSValue) : Except JsErr ℚ :=
  if l.any fun v => !v.isNum then .error .invalidArgument
  else
    match l with
    | [] => .error .typeError
    | v :: t =>
      .ok (((t.foldl (fun acc w => acc + w.toNum) v.toNum : ℤ) : ℚ)
        / ((t.length + 1 : ℕ) : ℚ))

/-- `numbers.gdc` with its runtime checks. -/
def gdc (a b : JSValue) : Except JsErr ℤ :=
  match a, b with
  | .num x, .num y => .ok (gdcInt x y)
  | _, _ => .error .invalidArgument

/-- `numbers.gdcArray` with its runtime checks and the empty-`reduce`
TypeError. -/
def gdcArray (l : List JSValue) : Except JsErr ℤ :=
  if l.any fun v => !v.isNum then .error .invalidArgument
  else
    match l with
    | [] => .error .typeError
    | v :: t => .ok (t.foldl (fun acc w => gdcInt acc w.toNum) v.toNum)

/-- `numbers.lcm` with its runtime checks. -/
def lcm (a b : JSValue) : Except JsErr ℤ :=
  match a, b with
  | .num x, .num y => .ok (lcmInt x y)
  | _, _ => .error .invalidArgument

/-- `numbers.lcmArray` with its runtime checks and the empty-`reduce`
TypeError. -/
def lcmArray (l : List JSValue) : Except JsErr ℤ :=
  if l.any fun v => !v.isNum then .error .invalidArgument
  else
    match l with
    | [] => .error .typeError
    | v :: t => .ok (t.foldl (fun acc w => lcmInt acc w.toNum) v.toNum)

end numbers

namespace colors

/-- `colors.rgbToHex` with its runtime checks. -/
def rgbToHex (v1 v2 v3 : JSValue) : Except JsErr String :=
  match v1, v2, v3 with
  | .num r, .num g, .num b => .ok (rgbToHexImpl r g b)
  | _, _, _ => .error .invalidArgument

/-- `colors.randomHex` performs no checks. -/
def randomHex (u : ℚ) : Except JsErr String := .ok (randomHexImpl u)

/-- The computation of `colors.randomRgb`: three draws, each floored after
multiplication by 255. -/
def randomRgbImpl (u1 u2 u3 : ℚ) : Rgb := ⟨⌊u1 * 255⌋, ⌊u2 * 255⌋, ⌊u3 * 255⌋⟩

/-- `colors.randomRgb` performs no checks. -/
def randomRgb (u1 u2 u3 : ℚ) : Except JsErr Rgb := .ok (randomRgbImpl u1 u2 u3)

/-- The computation of `colors.hslToRgb` after its checks: the standard
HSL-to-RGB formula of the source, with `%` the JavaScript remainder. -/
def hslToRgbImpl (h s l : ℚ) : Rgb :=
  let s1 := s / 100
  let l1 := l / 100
  let k : ℚ → ℚ := fun n => jsModQ (n + h / 30) 12
  let a := s1 * min l1 (1 - l1)
  let f : ℚ → ℚ := fun n => l1 - a * max (min (k n - 3) (min (9 - k n) 1)) (-1)
  ⟨round (f 0 * 255), round (f 8 * 255), round (f 4 * 255)⟩

/-- `colors.hslToRgb` with its runtime checks. -/
def hslToRgb (v1 v2 v3 : JSValue) : Except JsErr Rgb :=
  match v1, v2, v3 with
  | .num h, .num s, .num l => .ok (hslToRgbImpl h s l)
  | _, _, _ => .error .invalidArgument

/-- The computation of `colors.rgbToHsl` after its checks.  The `switch`
on the maximal channel tries `r`, then `g`, then `b`; the hue is rounded
once inside the branch and again in the returned record (the double
rounding of the source). -/
def rgbToHslImpl (r g b : ℚ) : Hsl :=
  let r1 := r / 255
  let g1 := g / 255
  let b1 := b / 255
  let mx := max r1 (max g1 b1)
  let mn := min r1 (min g1 b1)
  let delta := mx - mn
  let l := (mx + mn) / 2
  let s : ℚ := if delta ≠ 0 then delta / (1 - |2 * l - 1|) else 0
  let h0 : ℚ :=
    if delta ≠ 0 then
      if mx = r1 then jsModQ ((g1 - b1) / delta) 6
      else if mx = g1 then (b1 - r1) / delta + 2
      else (r1 - g1) / delta + 4
    else 0
  let h1 : ℚ := if delta ≠ 0 then ((round (h0 * 60) : ℤ) : ℚ) else 0
  let h2 : ℚ := if h1 < 0 then h1 + 360 else h1
  ⟨round h2, round (s * 100), round (l * 100)⟩

/-- `colors.rgbToHsl` with its runtime checks. -/
def rgbToHsl (v1 v2 v3 : JSValue) : Except JsErr Hsl :=
  match v1, v2, v3 with
  | .num r, .num g, .num b => .ok (rgbToHslImpl r g b)
  | _, _, _ => .error .invalidArgument

/-- The computation of `colors.randomHsl`. -/
def randomHslImpl (u1 u2 u3 : ℚ) : Hsl := ⟨⌊u1 * 360⌋, ⌊u2 * 100⌋, ⌊u3 * 100⌋⟩

/-- `colors.randomHsl` performs no checks. -/
def randomHsl (u1 u2 u3 : ℚ) : Except JsErr Hsl := .ok (randomHslImpl u1 u2 u3)

/-- The computation of `colors.hexToHsl`: the composition of the two
conversions of the source. -/
def hexToHslImpl (hex : String) : Hsl :=
  rgbToHslImpl ((hexToRgbImpl hex).r : ℚ) ((hexToRgbImpl hex).g : ℚ)
    ((hexToRgbImpl hex).b : ℚ)

/-- `colors.hexToHsl` with its runtime check (string expected). -/
def hexToHsl : JSValue → Except JsErr Hsl
  | .str s => .ok (hexToHslImpl s)
  | _ => .error .invalidArgument

/-- The computation of `colors.hslToHex`: the composition of the two
conversions of the source. -/
def hslToHexImpl (h s l : ℚ) : String :=
  rgbToHexImpl ((hslToRgbImpl h s l).r : ℚ) ((hslToRgbImpl h s l).g : ℚ)
    ((hslToRgbImpl h s l).b : ℚ)

/-- `colors.hslToHex` with its runtime checks. -/
def hslToHex (v1 v2 v3 : JSValue) : Except JsErr String :=
  match v1, v2, v3 with
  | .num h, .num s, .num l => .ok (hslToHexImpl h s l)
  | _, _, _ => .error .invalidArgument

end colors

theorem lowHexDigits_lt (k m : ℕ) : ∀ d ∈ lowHexDigits k m, d < 16 := by
  induction k generalizing m with
  | zero => simp [lowHexDigits]
  | succ k ih =>
    intro d hd
    rcases List.mem_append.mp hd with h | h
    · exact ih _ d h
    · simp only [List.mem_singleton] at h
      omega

theorem lowHexDigits_length (k m : ℕ) : (lowHexDigits k m).length = k := by
  induction k generalizing m with
  | zero => rfl
  | succ k ih => simp [lowHexDigits, ih]

theorem hexDigits_pow_add (k : ℕ) : ∀ m : ℕ, 1 ≤ k → m < 16 ^ k →
    hexDigits (16 ^ k + m) = 1 :: lowHexDigits k m := by
  induction k with
  | zero => omega
  | succ k ih =>
    intro m hk hm
    rw [hexDigits]
    rcases Nat.eq_zero_or_pos k with rfl | hk1
    · simp only [zero_add, pow_one] at hm ⊢
      have h16 : ¬ 16 + m < 16 := by omega
      have hdiv : (16 + m) / 16 = 1 := by omega
      have hmod : (16 + m) % 16 = m := by omega
      rw [if_neg h16, hdiv, hmod]
      have e1 : hexDigits 1 = [1] := by simp [hexDigits]
      have e2 : lowHexDigits 1 m = [m] := by
        have : m / 16 = 0 := Nat.div_eq_of_lt hm
        simp [lowHexDigits, this, Nat.mod_eq_of_lt hm]
      rw [e1, e2]
      rfl
    · have h16 : ¬ 16 ^ (k + 1) + m < 16 := by
        have : 16 ≤ 16 ^ (k + 1) := Nat.le_self_pow (by omega) 16
        omega
      have hdiv : (16 ^ (k + 1) + m) / 16 = 16 ^ k + m / 16 := by
        have h : 16 ^ (k + 1) = 16 * 16 ^ k := by ring
        rw [h, Nat.add_comm, Nat.add_mul_div_left _ _ (by omega), Nat.add_comm]
      have hmod : (16 ^ (k + 1) + m) % 16 = m % 16 := by
        have h : 16 ^ (k + 1) = 16 * 16 ^ k := by ring
        rw [h, Nat.add_comm, Nat.add_mul_mod_self_left]
      have hm16 : m / 16 < 16 ^ k := by
        rw [Nat.div_lt_iff_lt_mul (by omega)]
        calc m < 16 ^ (k + 1) := hm
        _ = 16 ^ k * 16 := by ring
      rw [if_neg h16, hdiv, hmod, ih (m / 16) hk1 hm16]
      rfl

theorem lowHexDigits_foldl (k : ℕ) : ∀ (m : ℕ) (a : ℤ), m < 16 ^ k →
    (lowHexDigits k m).foldl (fun (x : ℤ) (d : ℕ) => 16 * x + (d : ℤ)) a
      = a * 16 ^ k + m := by
  induction k with
  | zero =>
    intro m a hm
    interval_cases m
    simp [lowHexDigits]
  | succ k ih =>
    intro m a hm
    have hm16 : m / 16 < 16 ^ k := by
      rw [Nat.div_lt_iff_lt_mul (by omega)]
      calc m < 16 ^ (k + 1) := hm
      _ = 16 ^ k * 16 := by ring
    simp only [lowHexDigits, List.foldl_append, List.foldl_cons, List.foldl_nil]
    rw [ih (m / 16) a hm16]
    have h1 : (16 : ℤ) * ((m / 16 : ℕ) : ℤ) + ((m % 16 : ℕ) : ℤ) = (m : ℤ) := by
      omega
    calc 16 * (a * 16 ^ k + ((m / 16 : ℕ) : ℤ)) + ((m % 16 : ℕ) : ℤ)
        = a * (16 ^ k * 16) + (16 * ((m / 16 : ℕ) : ℤ) + ((m % 16 : ℕ) : ℤ)) := by ring
    _ = a * 16 ^ (k + 1) + (m : ℤ) := by rw [h1]; ring

theorem hexDigitVal_digitChar : ∀ d : ℕ, d < 16 →
    hexDigitVal? (Nat.digitChar d) = some d := by decide

theorem digitChar_not_ws : ∀ d : ℕ, d < 16 →
    isJsWhitespace (Nat.digitChar d) = false := by decide

theorem digitChar_not_special : ∀ d : ℕ, d < 16 →
    Nat.digitChar d ≠ '-' ∧ Nat.digitChar d ≠ '+' ∧ Nat.digitChar d ≠ 'x' ∧
    Nat.digitChar d ≠ 'X' ∧ Nat.digitChar d ≠ '#' := by decide

theorem takeWhile_all {α : Type} (p : α → Bool) :
    ∀ l : List α, (∀ c ∈ l, p c = true) → l.takeWhile p = l := by
  intro l hl
  induction l with
  | nil => rfl
  | cons c t ih =>
    rw [List.takeWhile_cons, hl c (by simp)]
    simp only [if_true]
    rw [ih fun x hx => hl x (by simp [hx])]

theorem foldl_map_digitChar (ds : List ℕ) (h2 : ∀ d ∈ ds, d < 16) (a : ℤ) :
    (ds.map Nat.digitChar).foldl (fun acc c => 16 * acc + ((hexDigitVal? c).getD 0 : ℤ)) a
      = ds.foldl (fun (x : ℤ) (d : ℕ) => 16 * x + (d : ℤ)) a := by
  induction ds generalizing a with
  | nil => rfl
  | cons d t ih =>
    simp only [List.map_cons, List.foldl_cons]
    rw [hexDigitVal_digitChar d (h2 d (by simp))]
    exact ih (fun x hx => h2 x (by simp [hx])) _

theorem dropWhile_not_head (c : Char) (t : List Char) (h : isJsWhitespace c = false) :
    (c :: t).dropWhile isJsWhitespace = c :: t := by
  simp [List.dropWhile_cons, h]

theorem stripSign_fst_other (c : Char) (t : List Char) (h1 : c ≠ '-') (h2 : c ≠ '+') :
    (stripSign (c :: t)).1 = 1 := by
  simp [stripSign, h1, h2]

theorem stripSign_snd_other (c : Char) (t : List Char) (h1 : c ≠ '-') (h2 : c ≠ '+') :
    (stripSign (c :: t)).2 = c :: t := by
  simp [stripSign, h1, h2]

theorem strip0x_single (c : Char) : strip0x [c] = [c] := by
  simp [strip0x]

theorem strip0x_of_snd (c c2 : Char) (t : List Char) (h : c2 ≠ 'x') (h2 : c2 ≠ 'X') :
    strip0x (c :: c2 :: t) = c :: c2 :: t := by
  simp [strip0x, h, h2]

theorem parseIntHex_hexchars (ds : List ℕ) (h1 : ds ≠ []) (h2 : ∀ d ∈ ds, d < 16) :
    parseIntHex (ds.map Nat.digitChar) =
      some (ds.foldl (fun (x : ℤ) (d : ℕ) => 16 * x + (d : ℤ)) 0) := by
  rcases ds with _ | ⟨d, ds2⟩
  · exact absurd rfl h1
  have hd : d < 16 := h2 d (by simp)
  obtain ⟨hminus, hplus, -, -, -⟩ := digitChar_not_special d hd
  have hstrip : strip0x (Nat.digitChar d :: ds2.map Nat.digitChar)
      = Nat.digitChar d :: ds2.map Nat.digitChar := by
    rcases ds2 with _ | ⟨d2, t2⟩
    · exact strip0x_single _
    · obtain ⟨-, -, hx2, hX2, -⟩ := digitChar_not_special d2 (h2 d2 (by simp))
      exact strip0x_of_snd _ _ _ hx2 hX2
  have hall : ∀ c ∈ Nat.digitChar d :: ds2.map Nat.digitChar,
      ((hexDigitVal? c).isSome) = true := by
    intro c hc
    rcases List.mem_cons.mp hc with rfl | hc
    · rw [hexDigitVal_digitChar d hd]; rfl
    · obtain ⟨e, he, rfl⟩ := List.mem_map.mp hc
      rw [hexDigitVal_digitChar e (h2 e (by simp [he]))]; rfl
  simp only [parseIntHex, List.map_cons]
  rw [dropWhile_not_head _ _ (digitChar_not_ws d hd),
    stripSign_fst_other _ _ hminus hplus, stripSign_snd_other _ _ hminus hplus,
    hstrip, takeWhile_all _ _ hall]
  rw [if_neg (by simp)]
  rw [← List.map_cons, foldl_map_digitChar _ h2, one_mul]

theorem jsTrunc_natCast (n : ℕ) : jsTrunc (n : ℚ) = n := by
  rw [jsTrunc, if_pos (by positivity)]
  exact_mod_cast Int.floor_natCast n

theorem toInt32_of_small (n : ℤ) (h1 : 0 ≤ n) (h2 : n < 2 ^ 31) : toInt32 n = n := by
  unfold toInt32
  omega

theorem jsShlQ_natCast (n : ℕ) (k : ℕ) (h : (n : ℤ) * 2 ^ k < 2 ^ 31) :
    jsShlQ (n : ℚ) k = (n : ℤ) * 2 ^ k := by
  have hn : (n : ℤ) < 2 ^ 31 := by
    have h1 : (1 : ℤ) ≤ 2 ^ k := one_le_pow₀ (by omega)
    nlinarith [Int.natCast_nonneg n]
  rw [jsShlQ, toInt32Q, jsTrunc_natCast,
    toInt32_of_small _ (Int.natCast_nonneg n) hn,
    toInt32_of_small _ (by positivity) h]

theorem jsShlQ_one_24 : jsShlQ (1 : ℚ) 24 = 16777216 := by
  have h : ((1 : ℕ) : ℚ) = (1 : ℚ) := by norm_num
  rw [← h, jsShlQ_natCast 1 24 (by norm_num)]
  norm_num

theorem rgbToHexImpl_data (r g b : ℕ) (hr : r ≤ 255) (hg : g ≤ 255) (hb : b ≤ 255) :
    (colors.rgbToHexImpl r g b).data
      = '#' :: (lowHexDigits 6 (r * 65536 + g * 256 + b)).map Nat.digitChar := by
  have e2 : jsShlQ (r : ℚ) 16 = (r : ℤ) * 65536 := by
    have := jsShlQ_natCast r 16 (by push_cast; omega)
    simpa using this
  have e3 : jsShlQ (g : ℚ) 8 = (g : ℤ) * 256 := by
    have := jsShlQ_natCast g 8 (by push_cast; omega)
    simpa using this
  have epacked : ((16777216 : ℤ) : ℚ) + (((r : ℤ) * 65536 : ℤ) : ℚ)
      + (((g : ℤ) * 256 : ℤ) : ℚ) + (b : ℚ)
      = ((16777216 + r * 65536 + g * 256 + b : ℕ) : ℚ) := by
    push_cast
    ring
  have hN : ¬ ((16777216 + r * 65536 + g * 256 + b : ℕ) : ℤ) < 0 := by omega
  have hm : r * 65536 + g * 256 + b < 16 ^ 6 := by omega
  have hsplit : 16777216 + r * 65536 + g * 256 + b
      = 16 ^ 6 + (r * 65536 + g * 256 + b) := by ring
  simp only [colors.rgbToHexImpl, jsShlQ_one_24, e2, e3, epacked, jsTrunc_natCast]
  rw [jsIntToHexString, if_neg hN, Int.toNat_natCast, natToHexChars, hsplit,
    hexDigits_pow_add 6 _ (by omega) hm]
  rfl

/-- The claim C1 round trip: encoding any in-range RGB triple to hex and
decoding it back is the identity. -/
theorem colors_hexToRgb_rgbToHex_roundtrip (r g b : ℕ)
    (hr : r ≤ 255) (hg : g ≤ 255) (hb : b ≤ 255) :
    colors.hexToRgbImpl (colors.rgbToHexImpl r g b) = ⟨r, g, b⟩ := by
  have hrep : colors.jsReplaceFirstHash
      ('#' :: (lowHexDigits 6 (r * 65536 + g * 256 + b)).map Nat.digitChar)
      = (lowHexDigits 6 (r * 65536 + g * 256 + b)).map Nat.digitChar := by
    simp [colors.jsReplaceFirstHash]
  have hm : r * 65536 + g * 256 + b < 16 ^ 6 := by omega
  have hne : lowHexDigits 6 (r * 65536 + g * 256 + b) ≠ [] := by
    intro h
    have := lowHexDigits_length 6 (r * 65536 + g * 256 + b)
    rw [h] at this
    simp at this
  have hval : (0 : ℤ) * 16 ^ 6 + ((r * 65536 + g * 256 + b : ℕ) : ℤ) =
      ((r * 65536 + g * 256 + b : ℕ) : ℤ) := by ring
  have h1 : ((r * 65536 + g * 256 + b : ℕ) : ℤ) / 2 ^ 16 % 256 = r := by
    push_cast
    omega
  have h2 : ((r * 65536 + g * 256 + b : ℕ) : ℤ) / 2 ^ 8 % 256 = g := by
    push_cast
    omega
  have h3 : ((r * 65536 + g * 256 + b : ℕ) : ℤ) % 256 = b := by
    push_cast
    omega
  have h32 : toInt32 ((r * 65536 + g * 256 + b : ℕ) : ℤ)
      = ((r * 65536 + g * 256 + b : ℕ) : ℤ) :=
    toInt32_of_small _ (Int.natCast_nonneg _) (by push_cast; omega)
  simp only [colors.hexToRgbImpl, rgbToHexImpl_data r g b hr hg hb, hrep,
    parseIntHex_hexchars _ hne (lowHexDigits_lt 6 _),
    lowHexDigits_foldl 6 _ 0 hm, hval, h32]
  simp only [Rgb.mk.injEq]
  exact ⟨h1, h2, h3⟩

theorem colors_roundtrip_witness :
    colors.hexToRgbImpl (colors.rgbToHexImpl ((12 : ℕ) : ℚ) ((34 : ℕ) : ℚ) ((56 : ℕ) : ℚ))
      = ⟨((12 : ℕ) : ℤ), ((34 : ℕ) : ℤ), ((56 : ℕ) : ℤ)⟩ :=
  colors_hexToRgb_rgbToHex_roundtrip 12 34 56 (by decide) (by decide) (by decide)

/-- Claim C9: a malformed hex string is not an error: `hexToRgb` still
returns a value, the channels of which are derived from the failed or
truncated parse (a NaN parse is coerced to zero by the bitwise operators). -/
theorem colors_hexToRgb_malformed_no_throw (s : String) (hmal : wellFormedHex s = false) :
    colors.hexToRgb (.str s) = .ok (colors.hexToRgbImpl s) ∧
    (parseIntHex (colors.jsReplaceFirstHash s.data) = none →
      colors.hexToRgb (.str s) = .ok ⟨0, 0, 0⟩) := by
  constructor
  · rfl
  · intro hp
    show Except.ok (colors.hexToRgbImpl s) = _
    simp only [colors.hexToRgbImpl, hp]
    norm_num

theorem colors_hexToRgb_malformed_witness :
    colors.hexToRgb (.str "zz") = .ok (colors.hexToRgbImpl "zz") :=
  (colors_hexToRgb_malformed_no_throw "zz" (by decide)).1

/-- Claim C10: whatever the input string, every channel returned by
`hexToRgb` is an integer in `[0, 255]`, and a completely unparseable string
gives the zero triple. -/
theorem colors_hexToRgb_channels_in_range (s : String) :
    0 ≤ (colors.hexToRgbImpl s).r ∧ (colors.hexToRgbImpl s).r ≤ 255 ∧
    0 ≤ (colors.hexToRgbImpl s).g ∧ (colors.hexToRgbImpl s).g ≤ 255 ∧
    0 ≤ (colors.hexToRgbImpl s).b ∧ (colors.hexToRgbImpl s).b ≤ 255 ∧
    (parseIntHex (colors.jsReplaceFirstHash s.data) = none →
      colors.hexToRgbImpl s = ⟨0, 0, 0⟩) := by
  rcases hp : parseIntHex (colors.jsReplaceFirstHash s.data) with _ | n
  · simp only [colors.hexToRgbImpl, hp]
    norm_num
  · simp only [colors.hexToRgbImpl, hp]
    generalize toInt32 n = x
    refine ⟨by omega, by omega, by omega, by omega, by omega, by omega, ?_⟩
    intro h
    simp at h

theorem colors_hexToRgb_channels_witness :
    colors.hexToRgbImpl "zz" = ⟨0, 0, 0⟩ :=
  (colors_hexToRgb_channels_in_range "zz").2.2.2.2.2.2 (by decide)

/-- Claim C4: for every numeric date and every recognized tag, `fromDate`
returns the token built from the floored unix seconds and the tag's
one-character code; in particular the two example evaluations of the spec. -/
theorem discordTimestamps_fromDate_spec (date : ℤ) :
    discordTimestamps.fromDate (.num date) "RELATIVE"
        = .ok ("<t:" ++ toString (⌊(date : ℚ) / 1000⌋ : ℤ) ++ ":" ++ "R" ++ ">") ∧
    discordTimestamps.fromDate (.num date) "DATE"
        = .ok ("<t:" ++ toString (⌊(date : ℚ) / 1000⌋ : ℤ) ++ ":" ++ "D" ++ ">") ∧
    discordTimestamps.fromDate (.num date) "TIME"
        = .ok ("<t:" ++ toString (⌊(date : ℚ) / 1000⌋ : ℤ) ++ ":" ++ "T" ++ ">") ∧
    discordTimestamps.fromDate (.num date) "SHORT_TIME"
        = .ok ("<t:" ++ toString (⌊(date : ℚ) / 1000⌋ : ℤ) ++ ":" ++ "t" ++ ">") ∧
    discordTimestamps.fromDate (.num date) "FULL"
        = .ok ("<t:" ++ toString (⌊(date : ℚ) / 1000⌋ : ℤ) ++ ":" ++ "F" ++ ">") ∧
    discordTimestamps.fromDate (.num (0 : ℤ)) "FULL" = .ok "<t:0:F>" ∧
    discordTimestamps.fromDate (.num (1620000000000 : ℤ)) "FULL"
        = .ok "<t:1620000000:F>" := by
  have h0 : (⌊((0 : ℤ) : ℚ) / 1000⌋ : ℤ) = 0 := by norm_num
  have h1 : (⌊((1620000000000 : ℤ) : ℚ) / 1000⌋ : ℤ) = 1620000000 := by
    push_cast
    norm_num [Int.floor_eq_iff]
  refine ⟨?_, ?_, ?_, ?_, ?_, ?_, ?_⟩
  · simp only [discordTimestamps.fromDate]
    rw [if_pos (by decide)]
    rfl
  · simp only [discordTimestamps.fromDate]
    rw [if_pos (by decide)]
    rfl
  · simp only [discordTimestamps.fromDate]
    rw [if_pos (by decide)]
    rfl
  · simp only [discordTimestamps.fromDate]
    rw [if_pos (by decide)]
    rfl
  · simp only [discordTimestamps.fromDate]
    rw [if_pos (by decide)]
    rfl
  · simp only [discordTimestamps.fromDate]
    rw [if_pos (by decide), h0]
    exact congrArg Except.ok (by decide)
  · simp only [discordTimestamps.fromDate]
    rw [if_pos (by decide), h1]
    exact congrArg Except.ok (by decide)

/-- Claim C5: on every numeric date and recognized tag the two variants
return the identical token; outside the recognized tags the stricter
variant throws while the looser one still returns a token. -/
theorem fromDate_strict_loose_agree (d : ℤ) (f : String) :
    (f ∈ discordTimestamps.formatsKeys →
      discordTimestamps.fromDate (.num d) f = loose.fromDate (.num d) f) ∧
    (f ∉ discordTimestamps.formatsKeys →
      discordTimestamps.fromDate (.num d) f = .error .invalidArgument ∧
      ∃ s : String, loose.fromDate (.num d) f = .ok s) := by
  constructor
  · intro hf
    simp only [discordTimestamps.fromDate, loose.fromDate, if_pos hf]
  · intro hf
    refine ⟨?_, ⟨_, rfl⟩⟩
    simp only [discordTimestamps.fromDate, if_neg hf]

theorem fromDate_strict_loose_agree_witness :
    discordTimestamps.fromDate (.num (0 : ℤ)) "FULL" = loose.fromDate (.num (0 : ℤ)) "FULL" :=
  (fromDate_strict_loose_agree 0 "FULL").1 (by decide)

theorem isPrimeLoop_true_iff (n i : ℕ) :
    numbers.isPrimeLoop n i = true ↔ ∀ j, i ≤ j → j ≤ Nat.sqrt n → n % j ≠ 0 := by
  rw [numbers.isPrimeLoop.eq_def]
  split
  next hle =>
    split
    next hdvd =>
      simp only [Bool.false_eq_true, false_iff]
      intro hall
      exact hall i le_rfl hle hdvd
    next hdvd =>
      rw [isPrimeLoop_true_iff n (i + 1)]
      constructor
      · intro h j hij hj
        rcases Nat.eq_or_lt_of_le hij with rfl | h2
        · exact hdvd
        · exact h j h2 hj
      · intro h j hij hj
        exact h j (by omega) hj
  next hle =>
    simp only [true_iff]
    intro j hij hj
    omega
termination_by Nat.sqrt n + 1 - i
decreasing_by simp_wf; omega

theorem isPrime_false_iff (num : ℤ) :
    numbers.isPrimeInt num = false ↔
      num < 2 ∨ ∃ i : ℕ, 2 ≤ i ∧ i ≤ Nat.sqrt num.toNat ∧ num.toNat % i = 0 := by
  rw [numbers.isPrimeInt]
  split
  next h => exact iff_of_true rfl (Or.inl h)
  next h =>
    constructor
    · intro hf
      right
      by_contra hno
      push_neg at hno
      have ht : numbers.isPrimeLoop num.toNat 2 = true :=
        (isPrimeLoop_true_iff _ 2).mpr fun j hj1 hj2 => hno j hj1 hj2
      rw [ht] at hf
      simp at hf
    · rintro (h2 | ⟨i, hi2, hile, hidvd⟩)
      · omega
      · by_contra ht
        rcases Bool.eq_false_or_eq_true (numbers.isPrimeLoop num.toNat 2) with htrue | hf2
        · exact (isPrimeLoop_true_iff _ 2).mp htrue i hi2 hile hidvd
        · exact ht hf2

theorem nat_sqrt_eq (n a : ℕ) (h1 : a * a ≤ n) (h2 : n < (a + 1) * (a + 1)) :
    Nat.sqrt n = a := by
  have hle : a ≤ Nat.sqrt n := Nat.le_sqrt.mpr h1
  have hlt : Nat.sqrt n < a + 1 := Nat.sqrt_lt.mpr h2
  omega

/-- Claim C3: `isPrime` rejects everything below two and otherwise returns
false exactly when some integer between 2 and the floored square root
divides the input; the four examples of the spec hold. -/
theorem numbers_isPrime_spec :
    (∀ num : ℤ, numbers.isPrimeInt num = false ↔
      num < 2 ∨ ∃ i : ℕ, 2 ≤ i ∧ i ≤ Nat.sqrt num.toNat ∧ num.toNat % i = 0) ∧
    numbers.isPrimeInt 2 = true ∧ numbers.isPrimeInt 1 = false ∧
    numbers.isPrimeInt 17 = true ∧ numbers.isPrimeInt 18 = false := by
  have hs2 : Nat.sqrt 2 = 1 := nat_sqrt_eq 2 1 (by decide) (by decide)
  have hs17 : Nat.sqrt 17 = 4 := nat_sqrt_eq 17 4 (by decide) (by decide)
  have hs18 : Nat.sqrt 18 = 4 := nat_sqrt_eq 18 4 (by decide) (by decide)
  refine ⟨isPrime_false_iff, ?_, ?_, ?_, ?_⟩
  · rcases Bool.eq_false_or_eq_true (numbers.isPrimeInt 2) with ht | hf
    · exact ht
    · rcases (isPrime_false_iff 2).mp hf with h2 | ⟨i, hi2, hile, -⟩
      · omega
      · rw [show ((2 : ℤ).toNat = 2) from rfl, hs2] at hile
        omega
  · exact (isPrime_false_iff 1).mpr (Or.inl (by omega))
  · rcases Bool.eq_false_or_eq_true (numbers.isPrimeInt 17) with ht | hf
    · exact ht
    · rcases (isPrime_false_iff 17).mp hf with h2 | ⟨i, hi2, hile, hdvd⟩
      · omega
      · rw [show ((17 : ℤ).toNat = 17) from rfl, hs17] at hile
        rw [show ((17 : ℤ).toNat = 17) from rfl] at hdvd
        interval_cases i <;> omega
  · refine (isPrime_false_iff 18).mpr (Or.inr ⟨2, by omega, ?_, by decide⟩)
    rw [show ((18 : ℤ).toNat = 18) from rfl, hs18]
    omega

theorem gdc_eq_gcd (a b : ℕ) : numbers.gdcNat a b = Nat.gcd a b := by
  rw [numbers.gdcNat.eq_def]
  split
  next h =>
    rw [h, Nat.gcd_zero_right]
  next h =>
    rw [gdc_eq_gcd b (a % b), Nat.gcd_comm b (a % b), ← Nat.gcd_rec b a,
      Nat.gcd_comm b a]
termination_by b
decreasing_by exact Nat.mod_lt a (by omega)

/-- Claim C7: the Euclidean recursion `gdc` is total on naturals and
computes the mathematical greatest common divisor; the derived `lcm`,
`gdcArray` and `lcmArray` examples of the spec follow. -/
theorem numbers_gdc_spec :
    (∀ a b : ℕ, numbers.gdcNat a b = Nat.gcd a b) ∧
    numbers.gdcNat 12 18 = 6 ∧ numbers.lcmNat 12 18 = 36 ∧
    numbers.gdcArrayNat [12, 18, 24] = .ok 6 ∧
    numbers.lcmArrayNat [12, 18, 24] = .ok 72 := by
  refine ⟨gdc_eq_gcd, ?_, ?_, ?_, ?_⟩
  · rw [gdc_eq_gcd]
    decide
  · rw [numbers.lcmNat, gdc_eq_gcd]
    decide
  · show Except.ok ([18, 24].foldl numbers.gdcNat 12) = Except.ok 6
    simp only [List.foldl_cons, List.foldl_nil, gdc_eq_gcd]
    rfl
  · show Except.ok ([18, 24].foldl numbers.lcmNat 12) = Except.ok 72
    simp only [List.foldl_cons, List.foldl_nil, numbers.lcmNat, gdc_eq_gcd]
    rfl

/-- Counterexample to claim C6 as stated: with the fractional bounds
`min = 0`, `max = 1/2` (so `min ≤ max`) and the random draw `u = 3/4`
(in `[0, 1)`), the result is `1`, which exceeds `max`.  All the arithmetic
here is exact in binary floating point, so the rational model agrees with
the JavaScript evaluation. -/
theorem numbers_random_fractional_counterexample :
    (0 : ℚ) ≤ 1 / 2 ∧ (0 : ℚ) ≤ 3 / 4 ∧ (3 / 4 : ℚ) < 1 ∧
    numbers.randomImpl 0 (1 / 2) (3 / 4) = 1 ∧
    ¬ numbers.randomImpl 0 (1 / 2) (3 / 4) ≤ 1 / 2 := by
  have hfloor : (⌊(3 / 4 : ℚ) * ((1 / 2 : ℚ) - 0 + 1)⌋ : ℤ) = 1 := by
    norm_num [Int.floor_eq_iff]
  refine ⟨by norm_num, by norm_num, by norm_num, ?_, ?_⟩
  · rw [numbers.randomImpl, hfloor]
    norm_num
  · rw [numbers.randomImpl, hfloor]
    norm_num

/-- Claim C6 amended to integer bounds: for integer `min ≤ max` and any
draw `u ∈ [0, 1)`, `floor(u * (max - min + 1)) + min` is an integer in
`[min, max]`. -/
theorem numbers_random_in_range_int (mn mx : ℤ) (u : ℚ)
    (h0 : 0 ≤ u) (h1 : u < 1) (hle : mn ≤ mx) :
    (mn : ℚ) ≤ numbers.randomImpl mn mx u ∧
    numbers.randomImpl mn mx u ≤ (mx : ℚ) ∧
    ∃ z : ℤ, numbers.randomImpl mn mx u = (z : ℚ) := by
  have hcast : (mn : ℚ) ≤ (mx : ℚ) := by exact_mod_cast hle
  have hrange : (0 : ℚ) < (mx : ℚ) - mn + 1 := by linarith
  have hprod0 : 0 ≤ u * ((mx : ℚ) - mn + 1) := mul_nonneg h0 (le_of_lt hrange)
  have hprodlt : u * ((mx : ℚ) - mn + 1) < (mx : ℚ) - mn + 1 :=
    mul_lt_of_lt_one_left hrange h1
  have hfl0 : 0 ≤ ⌊u * ((mx : ℚ) - mn + 1)⌋ := Int.floor_nonneg.mpr hprod0
  have hflt : ⌊u * ((mx : ℚ) - mn + 1)⌋ < mx - mn + 1 := by
    rw [Int.floor_lt]
    push_cast
    exact hprodlt
  have hfle : (⌊u * ((mx : ℚ) - mn + 1)⌋ : ℚ) ≤ (mx : ℚ) - mn := by
    have h := (by omega : ⌊u * ((mx : ℚ) - mn + 1)⌋ ≤ mx - mn)
    exact_mod_cast h
  have hfge : (0 : ℚ) ≤ (⌊u * ((mx : ℚ) - mn + 1)⌋ : ℚ) := by exact_mod_cast hfl0
  rw [numbers.randomImpl]
  refine ⟨by linarith, by linarith, ⟨⌊u * ((mx : ℚ) - mn + 1)⌋ + mn, by push_cast; ring⟩⟩

theorem numbers_random_in_range_witness :
    ((1 : ℤ) : ℚ) ≤ numbers.randomImpl ((1 : ℤ) : ℚ) ((10 : ℤ) : ℚ) (1 / 2) ∧
    numbers.randomImpl ((1 : ℤ) : ℚ) ((10 : ℤ) : ℚ) (1 / 2) ≤ ((10 : ℤ) : ℚ) ∧
    ∃ z : ℤ, numbers.randomImpl ((1 : ℤ) : ℚ) ((10 : ℤ) : ℚ) (1 / 2) = (z : ℚ) :=
  numbers_random_in_range_int 1 10 (1 / 2) (by norm_num) (by norm_num) (by norm_num)

/-- Counterexample to claim C8 as stated: `randomHex` does prepend `'#'`.
At the draw `u = 1/2` the result is the seven-character string `#7fffff`,
whose first character is the hash. -/
theorem colors_randomHex_hash_counterexample :
    colors.randomHexImpl (1 / 2) = "#7fffff" ∧
    (colors.randomHexImpl (1 / 2)).data.head? = some '#' := by
  have hfloor : (⌊(1 / 2 : ℚ) * 16777215⌋ : ℤ) = 8388607 := by
    norm_num [Int.floor_eq_iff]
  have hhex : hexDigits 8388607 = [7, 15, 15, 15, 15, 15] := by
    simp [hexDigits]
  have hmain : colors.randomHexImpl (1 / 2) = "#7fffff" := by
    rw [colors.randomHexImpl, hfloor, jsIntToHexString, if_neg (by decide)]
    rw [show ((8388607 : ℤ).toNat = 8388607) from rfl, natToHexChars, hhex]
    decide
  refine ⟨hmain, ?_⟩
  rw [hmain]
  rfl

/-- Claim C8 amended: `randomHex` returns `'#'` followed by the unpadded
base-16 representation of `floor(u * 16777215)` (a 24-bit value); small
draws give fewer than six digits, e.g. `u = 0` gives `#0`. -/
theorem colors_randomHex_spec (u : ℚ) (h0 : 0 ≤ u) (h1 : u < 1) :
    (∃ n : ℕ, (n : ℤ) = ⌊u * 16777215⌋ ∧ n < 16777215 ∧
      colors.randomHexImpl u = "#" ++ (⟨natToHexChars n⟩ : String)) ∧
    colors.randomHexImpl 0 = "#0" := by
  have hge : (0 : ℤ) ≤ ⌊u * 16777215⌋ := Int.floor_nonneg.mpr (by positivity)
  have hlt : ⌊u * 16777215⌋ < 16777215 := by
    rw [Int.floor_lt]
    push_cast
    exact mul_lt_of_lt_one_left (by norm_num) h1
  constructor
  · refine ⟨⌊u * 16777215⌋.toNat, by omega, by omega, ?_⟩
    rw [colors.randomHexImpl, jsIntToHexString, if_neg (by omega)]
  · have h00 : (⌊(0 : ℚ) * 16777215⌋ : ℤ) = 0 := by norm_num
    rw [colors.randomHexImpl, h00, jsIntToHexString, if_neg (by decide)]
    rw [show ((0 : ℤ).toNat = 0) from rfl, natToHexChars,
      show hexDigits 0 = [0] from by simp [hexDigits]]
    decide

theorem colors_randomHex_spec_witness :
    (∃ n : ℕ, (n : ℤ) = ⌊(1 / 2 : ℚ) * 16777215⌋ ∧ n < 16777215 ∧
      colors.randomHexImpl (1 / 2) = "#" ++ (⟨natToHexChars n⟩ : String)) ∧
    colors.randomHexImpl 0 = "#0" :=
  colors_randomHex_spec (1 / 2) (by norm_num) (by norm_num)

theorem checkedReduce_spec {α : Type} (l : List JSValue) (e : Except JsErr α)
    (g : JSValue → List JSValue → α)
    (he : e = if l.any fun v => !v.isNum then .error .invalidArgument
      else match l with
      | [] => .error .typeError
      | v :: t => .ok (g v t)) :
    (e = .error .invalidArgument ↔ ∃ v ∈ l, v.isNum = false) ∧
    (e = .error .typeError ↔ (∀ v ∈ l, v.isNum = true) ∧ l = []) ∧
    ((∃ x, e = .ok x) ↔ (∀ v ∈ l, v.isNum = true) ∧ l ≠ []) := by
  subst he
  by_cases hall : ∀ w ∈ l, w.isNum = true
  · have hany : (l.any fun w => !w.isNum) = false := by
      rw [List.any_eq_false]
      intro w hw
      simp [hall w hw]
    rw [hany, if_neg (by simp)]
    rcases l with _ | ⟨v, t⟩
    · simp
    · refine ⟨?_, ?_, ?_⟩
      · constructor
        · intro h
          exact absurd h (by simp)
        · rintro ⟨w, hw, hnw⟩
          have := hall w hw
          rw [this] at hnw
          exact absurd hnw (by simp)
      · constructor
        · intro h
          exact absurd h (by simp)
        · rintro ⟨-, h⟩
          exact absurd h (by simp)
      · exact iff_of_true ⟨_, rfl⟩ ⟨hall, by simp⟩
  · push_neg at hall
    obtain ⟨w, hw, hnw⟩ := hall
    have hw2 : w.isNum = false := Bool.eq_false_iff.mpr hnw
    have hany : (l.any fun x => !x.isNum) = true :=
      List.any_eq_true.mpr ⟨w, hw, by simp [hw2]⟩
    rw [hany, if_pos rfl]
    refine ⟨iff_of_true rfl ⟨w, hw, hw2⟩, iff_of_false (by simp) ?_, ?_⟩
    · rintro ⟨hallw, -⟩
      exact hnw (hallw w hw)
    · refine iff_of_false ?_ ?_
      · rintro ⟨x, hx⟩
        exact absurd hx (by simp)
      · rintro ⟨hallw, -⟩
        exact hnw (hallw w hw)

/-- Claim C2 amended: every public operation raises `InvalidArgument`
exactly when a parameter fails its runtime check, which for the stricter
timestamp variant includes membership of the format tag in the five
recognized keys; the reduction-based operations additionally raise the
host TypeError (a different error) on empty input after the type checks
pass; no operation errors for any other reason (division by zero,
out-of-range channels, malformed hex), and the error conditions depend
only on the type tags (and emptiness), never on the numeric values. -/
theorem js_invalidArgument_iff_type_check :
    (∀ (d : JSValue) (f : String),
      (discordTimestamps.fromDate d f = .error .invalidArgument ↔
        d.isNum = false ∨ f ∉ discordTimestamps.formatsKeys) ∧
      ((∃ s, discordTimestamps.fromDate d f = .ok s) ↔
        d.isNum = true ∧ f ∈ discordTimestamps.formatsKeys)) ∧
    (∀ (nowMs : ℚ) (f : String),
      (discordTimestamps.now nowMs f = .error .invalidArgument ↔
        f ∉ discordTimestamps.formatsKeys) ∧
      ((∃ s, discordTimestamps.now nowMs f = .ok s) ↔
        f ∈ discordTimestamps.formatsKeys)) ∧
    (∀ (nowMs : ℚ) (ms : JSValue) (f : String),
      (discordTimestamps.fromNow nowMs ms f = .error .invalidArgument ↔
        ms.isNum = false ∨ f ∉ discordTimestamps.formatsKeys) ∧
      ((∃ s, discordTimestamps.fromNow nowMs ms f = .ok s) ↔
        ms.isNum = true ∧ f ∈ discordTimestamps.formatsKeys)) ∧
    (∀ v : JSValue,
      (numbers.isEven v = .error .invalidArgument ↔ v.isNum = false) ∧
      ((∃ x, numbers.isEven v = .ok x) ↔ v.isNum = true)) ∧
    (∀ v : JSValue,
      (numbers.isOdd v = .error .invalidArgument ↔ v.isNum = false) ∧
      ((∃ x, numbers.isOdd v = .ok x) ↔ v.isNum = true)) ∧
    (∀ v : JSValue,
      (numbers.isPrime v = .error .invalidArgument ↔ v.isNum = false) ∧
      ((∃ x, numbers.isPrime v = .ok x) ↔ v.isNum = true)) ∧
    (∀ (a b : JSValue) (u : ℚ),
      (numbers.random a b u = .error .invalidArgument ↔
        a.isNum = false ∨ b.isNum = false) ∧
      ((∃ q, numbers.random a b u = .ok q) ↔ a.isNum = true ∧ b.isNum = true)) ∧
    (∀ l : List JSValue,
      (numbers.average l = .error .invalidArgument ↔ ∃ v ∈ l, v.isNum = false) ∧
      (numbers.average l = .error .typeError ↔ (∀ v ∈ l, v.isNum = true) ∧ l = []) ∧
      ((∃ q, numbers.average l = .ok q) ↔ (∀ v ∈ l, v.isNum = true) ∧ l ≠ [])) ∧
    (∀ a b : JSValue,
      (numbers.gdc a b = .error .invalidArgument ↔
        a.isNum = false ∨ b.isNum = false) ∧
      ((∃ z, numbers.gdc a b = .ok z) ↔ a.isNum = true ∧ b.isNum = true)) ∧
    (∀ l : List JSValue,
      (numbers.gdcArray l = .error .invalidArgument ↔ ∃ v ∈ l, v.isNum = false) ∧
      (numbers.gdcArray l = .error .typeError ↔ (∀ v ∈ l, v.isNum = true) ∧ l = []) ∧
      ((∃ z, numbers.gdcArray l = .ok z) ↔ (∀ v ∈ l, v.isNum = true) ∧ l ≠ [])) ∧
    (∀ a b : JSValue,
      (numbers.lcm a b = .error .invalidArgument ↔
        a.isNum = false ∨ b.isNum = false) ∧
      ((∃ z, numbers.lcm a b = .ok z) ↔ a.isNum = true ∧ b.isNum = true)) ∧
    (∀ l : List JSValue,
      (numbers.lcmArray l = .error .invalidArgument ↔ ∃ v ∈ l, v.isNum = false) ∧
      (numbers.lcmArray l = .error .typeError ↔ (∀ v ∈ l, v.isNum = true) ∧ l = []) ∧
      ((∃ z, numbers.lcmArray l = .ok z) ↔ (∀ v ∈ l, v.isNum = true) ∧ l ≠ [])) ∧
    (∀ v1 v2 v3 : JSValue,
      (colors.rgbToHex v1 v2 v3 = .error .invalidArgument ↔
        v1.isNum = false ∨ v2.isNum = false ∨ v3.isNum = false) ∧
      ((∃ s, colors.rgbToHex v1 v2 v3 = .ok s) ↔
        v1.isNum = true ∧ v2.isNum = true ∧ v3.isNum = true)) ∧
    (∀ v : JSValue,
      (colors.hexToRgb v = .error .invalidArgument ↔ v.isStr = false) ∧
      ((∃ c, colors.hexToRgb v = .ok c) ↔ v.isStr = true)) ∧
    (∀ u : ℚ, colors.randomHex u = .ok (colors.randomHexImpl u)) ∧
    (∀ u1 u2 u3 : ℚ,
      colors.randomRgb u1 u2 u3 = .ok (colors.randomRgbImpl u1 u2 u3)) ∧
    (∀ v1 v2 v3 : JSValue,
      (colors.hslToRgb v1 v2 v3 = .error .invalidArgument ↔
        v1.isNum = false ∨ v2.isNum = false ∨ v3.isNum = false) ∧
      ((∃ c, colors.hslToRgb v1 v2 v3 = .ok c) ↔
        v1.isNum = true ∧ v2.isNum = true ∧ v3.isNum = true)) ∧
    (∀ v1 v2 v3 : JSValue,
      (colors.rgbToHsl v1 v2 v3 = .error .invalidArgument ↔
        v1.isNum = false ∨ v2.isNum = false ∨ v3.isNum = false) ∧
      ((∃ c, colors.rgbToHsl v1 v2 v3 = .ok c) ↔
        v1.isNum = true ∧ v2.isNum = true ∧ v3.isNum = true)) ∧
    (∀ u1 u2 u3 : ℚ,
      colors.randomHsl u1 u2 u3 = .ok (colors.randomHslImpl u1 u2 u3)) ∧
    (∀ v : JSValue,
      (colors.hexToHsl v = .error .invalidArgument ↔ v.isStr = false) ∧
      ((∃ c, colors.hexToHsl v = .ok c) ↔ v.isStr = true)) ∧
    (∀ v1 v2 v3 : JSValue,
      (colors.hslToHex v1 v2 v3 = .error .invalidArgument ↔
        v1.isNum = false ∨ v2.isNum = false ∨ v3.isNum = false) ∧
      ((∃ s, colors.hslToHex v1 v2 v3 = .ok s) ↔
        v1.isNum = true ∧ v2.isNum = true ∧ v3.isNum = true)) := by
  refine ⟨?_, ?_, ?_, ?_, ?_, ?_, ?_, ?_, ?_, ?_, ?_, ?_, ?_, ?_, ?_, ?_, ?_, ?_, ?_, ?_, ?_⟩
  · intro d f
    rcases d with q | s | _ <;> by_cases hf : f ∈ discordTimestamps.formatsKeys <;>
      simp [discordTimestamps.fromDate, JSValue.isNum, hf]
  · intro nowMs f
    by_cases hf : f ∈ discordTimestamps.formatsKeys <;>
      simp [discordTimestamps.now, hf]
  · intro nowMs ms f
    rcases ms with q | s | _ <;> by_cases hf : f ∈ discordTimestamps.formatsKeys <;>
      simp [discordTimestamps.fromNow, JSValue.isNum, hf]
  · intro v
    rcases v with q | s | _ <;> simp [numbers.isEven, JSValue.isNum]
  · intro v
    rcases v with q | s | _ <;> simp [numbers.isOdd, JSValue.isNum]
    exact em _
  · intro v
    rcases v with q | s | _ <;> simp [numbers.isPrime, JSValue.isNum]
  · intro a b u
    rcases a with q | s | _ <;> rcases b with q2 | s2 | _ <;>
      simp [numbers.random, JSValue.isNum]
  · intro l
    exact checkedReduce_spec l (numbers.average l)
      (fun v t => ((t.foldl (fun acc w => acc + w.toNum) v.toNum : ℤ) : ℚ)
        / ((t.length + 1 : ℕ) : ℚ)) rfl
  · intro a b
    rcases a with q | s | _ <;> rcases b with q2 | s2 | _ <;>
      simp [numbers.gdc, JSValue.isNum]
  · intro l
    exact checkedReduce_spec l (numbers.gdcArray l)
      (fun (v : JSValue) (t : List JSValue) =>
        t.foldl (fun (acc : ℤ) (w : JSValue) => numbers.gdcInt acc w.toNum) v.toNum) rfl
  · intro a b
    rcases a with q | s | _ <;> rcases b with q2 | s2 | _ <;>
      simp [numbers.lcm, JSValue.isNum]
  · intro l
    exact checkedReduce_spec l (numbers.lcmArray l)
      (fun (v : JSValue) (t : List JSValue) =>
        t.foldl (fun (acc : ℤ) (w : JSValue) => numbers.lcmInt acc w.toNum) v.toNum) rfl
  · intro v1 v2 v3
    rcases v1 with q1 | s1 | _ <;> rcases v2 with q2 | s2 | _ <;>
      rcases v3 with q3 | s3 | _ <;> simp [colors.rgbToHex, JSValue.isNum]
  · intro v
    rcases v with q | s | _ <;> simp [colors.hexToRgb, JSValue.isStr]
  · intro u
    rfl
  · intro u1 u2 u3
    rfl
  · intro v1 v2 v3
    rcases v1 with q1 | s1 | _ <;> rcases v2 with q2 | s2 | _ <;>
      rcases v3 with q3 | s3 | _ <;> simp [colors.hslToRgb, JSValue.isNum]
  · intro v1 v2 v3
    rcases v1 with q1 | s1 | _ <;> rcases v2 with q2 | s2 | _ <;>
      rcases v3 with q3 | s3 | _ <;> simp [colors.rgbToHsl, JSValue.isNum]
  · intro u1 u2 u3
    rfl
  · intro v
    rcases v with q | s | _ <;> simp [colors.hexToHsl, JSValue.isStr]
  · intro v1 v2 v3
    rcases v1 with q1 | s1 | _ <;> rcases v2 with q2 | s2 | _ <;>
      rcases v3 with q3 | s3 | _ <;> simp [colors.hslToHex, JSValue.isNum]

/-- Counterexample to claim C2 as stated: the stricter `fromDate` raises
`InvalidArgument` for a numeric date and the string `BOGUS` even though
every numeric-typed parameter received a number and every string-typed
parameter received a string; and `average` with empty variadic input does
raise (the empty-`reduce` TypeError). -/
theorem js_error_beyond_type_check_counterexample :
    discordTimestamps.fromDate (.num 0) "BOGUS" = .error .invalidArgument ∧
    (JSValue.num 0).isNum = true ∧
    numbers.average [] = .error .typeError := by
  refine ⟨?_, rfl, rfl⟩
  simp only [discordTimestamps.fromDate]
  rw [if_neg (by decide)]
